import Mathlib

/-!
Verification development for the cradle child-process invocation engine.

Strings of the Rust source are modelled as `List Char`; OS-level byte
buffers (`Vec<u8>`, `OsString`) are modelled as `List Nat` with every
element a byte value.  Fallible Rust functions returning
`Result<T, Error>` are modelled with `Except Error T`.
-/

namespace Cradle

/-- The Unicode White_Space property, as used by Rust `char::is_whitespace`. -/
def isRustWhitespace (c : Char) : Bool :=
  let n := c.toNat
  (0x09 ≤ n && n ≤ 0x0D) || n == 0x20 || n == 0x85 || n == 0xA0 ||
  n == 0x1680 || (0x2000 ≤ n && n ≤ 0x200A) || n == 0x2028 || n == 0x2029 ||
  n == 0x202F || n == 0x205F || n == 0x3000

/-- Rust `str::trim`: removes all leading and trailing characters satisfying
`char::is_whitespace` (used by `StdoutTrimmed::from_child_output` in
`src/output.rs`). -/
def rustTrim (s : List Char) : List Char :=
  (((s.dropWhile isRustWhitespace).reverse.dropWhile isRustWhitespace).reverse)

/-- Is a byte a UTF-8 continuation byte (`0x80..=0xBF`)? -/
def isCont (b : Nat) : Bool := 0x80 ≤ b && b ≤ 0xBF

/-- Valid range for the second byte of a three-byte UTF-8 sequence with the
given lead byte (excludes overlong encodings and surrogates). -/
def validSecond3 (b b1 : Nat) : Bool :=
  if b == 0xE0 then 0xA0 ≤ b1 && b1 ≤ 0xBF
  else if b == 0xED then 0x80 ≤ b1 && b1 ≤ 0x9F
  else isCont b1

/-- Valid range for the second byte of a four-byte UTF-8 sequence with the
given lead byte (excludes overlong encodings and values above U+10FFFF). -/
def validSecond4 (b b1 : Nat) : Bool :=
  if b == 0xF0 then 0x90 ≤ b1 && b1 ≤ 0xBF
  else if b == 0xF4 then 0x80 ≤ b1 && b1 ≤ 0x8F
  else isCont b1

/-- Scalar value of a two-byte UTF-8 sequence. -/
def utf8Val2 (b b1 : Nat) : Nat := (b - 0xC0) * 0x40 + (b1 - 0x80)

/-- Scalar value of a three-byte UTF-8 sequence. -/
def utf8Val3 (b b1 b2 : Nat) : Nat :=
  (b - 0xE0) * 0x1000 + (b1 - 0x80) * 0x40 + (b2 - 0x80)

/-- Scalar value of a four-byte UTF-8 sequence. -/
def utf8Val4 (b b1 b2 b3 : Nat) : Nat :=
  (b - 0xF0) * 0x40000 + (b1 - 0x80) * 0x1000 + (b2 - 0x80) * 0x40 + (b3 - 0x80)

/-- Rust `String::from_utf8`: strict UTF-8 decoding, `none` on any invalid,
overlong, surrogate or truncated sequence. -/
def utf8DecodeStrict : List Nat → Option (List Char)
  | [] => some []
  | b :: rest =>
    if b < 0x80 then (utf8DecodeStrict rest).map (fun s => Char.ofNat b :: s)
    else if b < 0xC2 then none
    else if b < 0xE0 then
      match rest with
      | b1 :: rest1 =>
        if isCont b1 then (utf8DecodeStrict rest1).map (fun s => Char.ofNat (utf8Val2 b b1) :: s)
        else none
      | [] => none
    else if b < 0xF0 then
      match rest with
      | b1 :: b2 :: rest2 =>
        if validSecond3 b b1 && isCont b2 then
          (utf8DecodeStrict rest2).map (fun s => Char.ofNat (utf8Val3 b b1 b2) :: s)
        else none
      | _ => none
    else if b < 0xF5 then
      match rest with
      | b1 :: b2 :: b3 :: rest3 =>
        if validSecond4 b b1 && isCont b2 && isCont b3 then
          (utf8DecodeStrict rest3).map (fun s => Char.ofNat (utf8Val4 b b1 b2 b3) :: s)
        else none
      | _ => none
    else none

/-- The Unicode replacement character U+FFFD. -/
def replacementChar : Char := Char.ofNat 0xFFFD

/-- Helper for `utf8DecodeLossy`; the first argument is fuel that is at least
the length of the byte list, so the fuel-exhausted arm is never reached. -/
def utf8DecodeLossyAux : Nat → List Nat → List Char
  | 0, _ => []
  | _, [] => []
  | fuel + 1, b :: rest =>
    if b < 0x80 then Char.ofNat b :: utf8DecodeLossyAux fuel rest
    else if b < 0xC2 then replacementChar :: utf8DecodeLossyAux fuel rest
    else if b < 0xE0 then
      match rest with
      | b1 :: rest1 =>
        if isCont b1 then Char.ofNat (utf8Val2 b b1) :: utf8DecodeLossyAux fuel rest1
        else replacementChar :: utf8DecodeLossyAux fuel (b1 :: rest1)
      | [] => [replacementChar]
    else if b < 0xF0 then
      match rest with
      | b1 :: rest1 =>
        if validSecond3 b b1 then
          match rest1 with
          | b2 :: rest2 =>
            if isCont b2 then Char.ofNat (utf8Val3 b b1 b2) :: utf8DecodeLossyAux fuel rest2
            else replacementChar :: utf8DecodeLossyAux fuel (b2 :: rest2)
          | [] => [replacementChar]
        else replacementChar :: utf8DecodeLossyAux fuel (b1 :: rest1)
      | [] => [replacementChar]
    else if b < 0xF5 then
      match rest with
      | b1 :: rest1 =>
        if validSecond4 b b1 then
          match rest1 with
          | b2 :: rest2 =>
            if isCont b2 then
              match rest2 with
              | b3 :: rest3 =>
                if isCont b3 then
                  Char.ofNat (utf8Val4 b b1 b2 b3) :: utf8DecodeLossyAux fuel rest3
                else replacementChar :: utf8DecodeLossyAux fuel (b3 :: rest3)
              | [] => [replacementChar]
            else replacementChar :: utf8DecodeLossyAux fuel (b2 :: rest2)
          | [] => [replacementChar]
        else replacementChar :: utf8DecodeLossyAux fuel (b1 :: rest1)
      | [] => [replacementChar]
    else replacementChar :: utf8DecodeLossyAux fuel rest

/-- Rust `String::from_utf8_lossy` / `OsStr::to_string_lossy`: lossy UTF-8
decoding replacing each maximal invalid subpart with U+FFFD. -/
def utf8DecodeLossy (bytes : List Nat) : List Char :=
  utf8DecodeLossyAux bytes.length bytes

/-- The ASCII single-quote character used by `Config::full_command` and the
error display code. -/
def quoteChar : Char := Char.ofNat 39

/-- Classification of an OS I/O error, mirroring `std::io::ErrorKind` as far
as the engine inspects it (`run_child_process` only compares against
`NotFound`). -/
inductive IoErrorKind : Type
  | notFound
  | permissionDenied
  | brokenPipe
  | other (code : Nat)
deriving DecidableEq, Repr

/-- An OS I/O error (`std::io::Error`): its kind and its display text. -/
structure IoError : Type where
  kind : IoErrorKind
  message : List Char
deriving DecidableEq, Repr

/-- `std::process::ExitStatus`: either a normal exit with a code, or
termination by a signal (in which case `code()` is `None`). -/
inductive ExitStatus : Type
  | exited (code : Int)
  | signaled (signal : Nat)
deriving DecidableEq, Repr

/-- `ExitStatus::success`: true exactly for a normal exit with code zero. -/
def ExitStatus.success : ExitStatus → Bool
  | .exited code => code == 0
  | .signaled _ => false

/-- `ExitStatus::code`: the exit code, absent for a signal termination. -/
def ExitStatus.code : ExitStatus → Option Int
  | .exited code => some code
  | .signaled _ => none

/-- The configuration record (`Config` in `src/config.rs`).  `OsString`
values are byte lists. -/
structure Config : Type where
  arguments : List (List Nat)
  log_command : Bool
  working_directory : Option (List Nat)
  added_environment_variables : List (List Nat × List Nat)
  stdin : List Nat
  capture_stdout : Bool
  capture_stderr : Bool
  error_on_non_zero_exit_code : Bool
deriving DecidableEq, Repr

/-- `Config::default` (`impl Default for Config` in `src/config.rs`). -/
def Config.default : Config where
  arguments := []
  log_command := false
  working_directory := none
  added_environment_variables := []
  stdin := []
  capture_stdout := false
  capture_stderr := false
  error_on_non_zero_exit_code := true

/-- The loop body of `Config::full_command`: fold over the arguments,
separating with a single space once the result is non-empty, wrapping an
argument in single quotes when its lossy decoding is empty or contains a
space. -/
def fullCommandLoop : List (List Nat) → List Char → List Char
  | [], result => result
  | argument :: rest, result =>
    let argument := utf8DecodeLossy argument
    let result := if result.isEmpty then result else result ++ [' ']
    let needs_quotes := argument.isEmpty || argument.contains ' '
    let result :=
      if needs_quotes then result ++ quoteChar :: (argument ++ [quoteChar])
      else result ++ argument
    fullCommandLoop rest result

/-- `Config::full_command` (`src/config.rs` lines 23-40). -/
def Config.full_command (config : Config) : List Char :=
  fullCommandLoop config.arguments []

/-- The error taxonomy (`Error` in `src/error.rs`). -/
inductive Error : Type where
  | NoExecutableGiven : Error
  | FileNotFound (executable : List Nat) (source : IoError) : Error
  | CommandIoError (message : List Char) (source : IoError) : Error
  | NonZeroExitCode (full_command : List Char) (exit_status : ExitStatus) : Error
  | InvalidUtf8ToStdout (full_command : List Char) : Error
  | InvalidUtf8ToStderr (full_command : List Char) : Error
  | Internal (message : List Char) (full_command : List Char) (config : Config) : Error
deriving DecidableEq, Repr

/-- `Error::command_io_error` (`src/error.rs` lines 108-113). -/
def Error.command_io_error (config : Config) (error : IoError) : Error :=
  Error.CommandIoError (config.full_command ++ ":\n  ".data ++ error.message) error

/-- `Error::internal` (`src/error.rs` lines 115-121). -/
def Error.internal (message : List Char) (config : Config) : Error :=
  Error.Internal message config.full_command config

/-- `ChildOutput` (`src/child_output.rs` lines 17-22): the internal result of
one invocation. -/
structure ChildOutput : Type where
  stdout : Option (List Nat)
  stderr : Option (List Nat)
  exit_status : ExitStatus
deriving DecidableEq, Repr

/-- `CollectedOutput` (`src/collected_output.rs` lines 96-100): what the two
drainer threads hand back on join.  Note the asymmetry in the source: stdout
is optional, stderr is always a buffer. -/
structure CollectedOutput : Type where
  stdout : Option (List Nat)
  stderr : List Nat
deriving DecidableEq, Repr

/-- What the child process does during one run: the chunk sequences the
parent two drainer loops read from the child stdout and stderr pipes
(each `read` call returns one non-empty chunk until EOF), and the exit
status `wait` reports. -/
structure ChildBehavior : Type where
  stdout_chunks : List (List Nat)
  stderr_chunks : List (List Nat)
  exit_status : ExitStatus
deriving DecidableEq, Repr

/-- The stdout drainer loop (`src/collected_output.rs` lines 34-54): per
chunk, append to the collected buffer when capturing, and write the chunk to
the parent stdout when not capturing.  Returns the collected buffer and
the bytes written to the parent stdout. -/
def stdoutDrainerLoop (capture_stdout : Bool) :
    List (List Nat) → Option (List Nat) → List Nat → Option (List Nat) × List Nat
  | [], collected_stdout, written => (collected_stdout, written)
  | chunk :: rest, collected_stdout, written =>
    let collected_stdout :=
      match collected_stdout with
      | some buffer => some (buffer ++ chunk)
      | none => none
    let written := if capture_stdout then written else written ++ chunk
    stdoutDrainerLoop capture_stdout rest collected_stdout written

/-- The stdout drainer thread: starts with an empty buffer exactly when
capturing (`src/collected_output.rs` lines 35-39). -/
def stdoutDrainer (capture_stdout : Bool) (chunks : List (List Nat)) :
    Option (List Nat) × List Nat :=
  stdoutDrainerLoop capture_stdout chunks (if capture_stdout then some [] else none) []

/-- The stderr drainer loop (`src/collected_output.rs` lines 57-70): always
appends each chunk to the collected buffer, and writes the chunk to the
parent stderr when not capturing. -/
def stderrDrainerLoop (capture_stderr : Bool) :
    List (List Nat) → List Nat → List Nat → List Nat × List Nat
  | [], collected_stderr, written => (collected_stderr, written)
  | chunk :: rest, collected_stderr, written =>
    stderrDrainerLoop capture_stderr rest (collected_stderr ++ chunk)
      (if capture_stderr then written else written ++ chunk)

/-- The stderr drainer thread (`src/collected_output.rs` lines 57-71). -/
def stderrDrainer (capture_stderr : Bool) (chunks : List (List Nat)) :
    List Nat × List Nat :=
  stderrDrainerLoop capture_stderr chunks [] []

/-- Joined outcome of `Waiter::spawn_standard_stream_relaying` followed by
`Waiter::join` (`src/collected_output.rs`): the collected output plus the
bytes relayed to the parent stdout and stderr.  The stdin feeder thread is
modelled as succeeding. -/
def spawnStandardStreamRelaying (config : Config) (child : ChildBehavior) :
    CollectedOutput × List Nat × List Nat :=
  let stdout_result := stdoutDrainer config.capture_stdout child.stdout_chunks
  let stderr_result := stderrDrainer config.capture_stderr child.stderr_chunks
  (⟨stdout_result.1, stderr_result.1⟩, stdout_result.2, stderr_result.2)

/-- `ChildOutput::parse_input` (`src/child_output.rs` lines 98-108). -/
def parse_input : List (List Nat) → Except Error (List Nat × List (List Nat))
  | [] => .error Error.NoExecutableGiven
  | command :: words => .ok (command, words)

/-- `ChildOutput::check_exit_status` (`src/child_output.rs` lines 110-119). -/
def check_exit_status (config : Config) (exit_status : ExitStatus) : Except Error Unit :=
  if config.error_on_non_zero_exit_code && !exit_status.success then
    .error (Error.NonZeroExitCode config.full_command exit_status)
  else
    .ok ()

instance {ε α : Type} [DecidableEq ε] [DecidableEq α] : DecidableEq (Except ε α) :=
  fun x y =>
    match x, y with
    | .ok a, .ok b => decidable_of_iff (a = b) (by simp)
    | .error a, .error b => decidable_of_iff (a = b) (by simp)
    | .ok _, .error _ => isFalse (fun h => Except.noConfusion h)
    | .error _, .ok _ => isFalse (fun h => Except.noConfusion h)

/-- Outcome of one `run_child_process` call: the internal result or error,
and the bytes relayed to the parent stdout and stderr sinks. -/
structure RunOutcome : Type where
  result : Except Error ChildOutput
  parent_stdout : List Nat
  parent_stderr : List Nat
deriving DecidableEq, Repr

/-- `ChildOutput::run_child_process` (`src/child_output.rs` lines 39-96).
The OS is modelled by the `spawn` parameter: either the spawn fails with an
I/O error, or it yields the child observable behavior.  Writes to the
parent sinks are modelled as never failing, and the command-log line
(which goes to the parent stderr) is not tracked in `parent_stderr`.
On the stderr field of the result: the source assigns
`collected_output.stderr`, which in `src/collected_output.rs` is always a
buffer (never absent), so the result optional stderr field is always
populated. -/
def run_child_process (config : Config) (spawn : Except IoError ChildBehavior) :
    RunOutcome :=
  match parse_input config.arguments with
  | .error e => ⟨.error e, [], []⟩
  | .ok (executable, _arguments) =>
    match spawn with
    | .error source =>
      if source.kind = IoErrorKind.notFound then
        ⟨.error (Error.FileNotFound executable source), [], []⟩
      else
        ⟨.error (Error.command_io_error config source), [], []⟩
    | .ok child =>
      let relayed := spawnStandardStreamRelaying config child
      let exit_status := child.exit_status
      match check_exit_status config exit_status with
      | .error e => ⟨.error e, relayed.2.1, relayed.2.2⟩
      | .ok _ =>
        ⟨.ok ⟨relayed.1.stdout, some relayed.1.stderr, exit_status⟩,
          relayed.2.1, relayed.2.2⟩

/-- The `Output` trait (`src/output.rs` lines 64-68): a pair of a
configuration step and an extraction step. -/
structure OutputSpec (α : Type) : Type where
  configure : Config → Config
  from_child_output : Config → ChildOutput → Except Error α

/-- `ChildOutput::run_child_process_output` (`src/child_output.rs` lines
25-37): configure, run, then extract. -/
def run_child_process_output {α : Type} (o : OutputSpec α) (config : Config)
    (spawn : Except IoError ChildBehavior) : Except Error α :=
  let config := o.configure config
  match (run_child_process config spawn).result with
  | .error e => .error e
  | .ok child_output => o.from_child_output config child_output

/-- The `StdoutUntrimmed` extractor value (`src/output.rs` line 169). -/
structure StdoutUntrimmed : Type where
  val : List Char
deriving DecidableEq, Repr

/-- `StdoutUntrimmed::configure` (`src/output.rs` lines 172-175). -/
def StdoutUntrimmed.configure (config : Config) : Config :=
  { config with capture_stdout := true }

/-- `StdoutUntrimmed::from_child_output` (`src/output.rs` lines 177-189). -/
def StdoutUntrimmed.from_child_output (config : Config) (child_output : ChildOutput) :
    Except Error StdoutUntrimmed :=
  match child_output.stdout with
  | none => .error (Error.internal "stdout not captured".data config)
  | some stdout =>
    match utf8DecodeStrict stdout with
    | none => .error (Error.InvalidUtf8ToStdout config.full_command)
    | some s => .ok ⟨s⟩

/-- The `Output` impl for `StdoutUntrimmed`. -/
def StdoutUntrimmed.outputSpec : OutputSpec StdoutUntrimmed :=
  ⟨StdoutUntrimmed.configure, StdoutUntrimmed.from_child_output⟩

/-- The `StdoutTrimmed` extractor value (`src/output.rs` line 145). -/
structure StdoutTrimmed : Type where
  val : List Char
deriving DecidableEq, Repr

/-- `StdoutTrimmed::configure` (`src/output.rs` lines 148-151): delegates to
`StdoutUntrimmed::configure`. -/
def StdoutTrimmed.configure (config : Config) : Config :=
  StdoutUntrimmed.configure config

/-- `StdoutTrimmed::from_child_output` (`src/output.rs` lines 153-158):
extract untrimmed, then apply `str::trim`. -/
def StdoutTrimmed.from_child_output (config : Config) (child_output : ChildOutput) :
    Except Error StdoutTrimmed :=
  match StdoutUntrimmed.from_child_output config child_output with
  | .error e => .error e
  | .ok stdout => .ok ⟨rustTrim stdout.val⟩

/-- The `Output` impl for `StdoutTrimmed`. -/
def StdoutTrimmed.outputSpec : OutputSpec StdoutTrimmed :=
  ⟨StdoutTrimmed.configure, StdoutTrimmed.from_child_output⟩

/-- The `Stderr` extractor value (`src/output.rs` line 210). -/
structure Stderr : Type where
  val : List Char
deriving DecidableEq, Repr

/-- `Stderr::configure` (`src/output.rs` lines 213-216). -/
def Stderr.configure (config : Config) : Config :=
  { config with capture_stderr := true }

/-- `Stderr::from_child_output` (`src/output.rs` lines 218-230). -/
def Stderr.from_child_output (config : Config) (child_output : ChildOutput) :
    Except Error Stderr :=
  match child_output.stderr with
  | none => .error (Error.internal "stderr not captured".data config)
  | some stderr =>
    match utf8DecodeStrict stderr with
    | none => .error (Error.InvalidUtf8ToStderr config.full_command)
    | some s => .ok ⟨s⟩

/-- The `Output` impl for `Stderr`. -/
def Stderr.outputSpec : OutputSpec Stderr :=
  ⟨Stderr.configure, Stderr.from_child_output⟩

/-- The `Status` extractor value (`src/output.rs` line 262). -/
structure Status : Type where
  val : ExitStatus
deriving DecidableEq, Repr

/-- `Status::configure` (`src/output.rs` lines 265-268): disables the
non-zero-exit-code policy. -/
def Status.configure (config : Config) : Config :=
  { config with error_on_non_zero_exit_code := false }

/-- `Status::from_child_output` (`src/output.rs` lines 270-273). -/
def Status.from_child_output (_config : Config) (child_output : ChildOutput) :
    Except Error Status :=
  .ok ⟨child_output.exit_status⟩

/-- The `Output` impl for `Status`. -/
def Status.outputSpec : OutputSpec Status :=
  ⟨Status.configure, Status.from_child_output⟩

/-- The `Output` impl for `()` (`src/output.rs` lines 86-94). -/
def unitOutputSpec : OutputSpec Unit :=
  ⟨fun config => config, fun _ _ => .ok ()⟩

/-- Loop body of `english_list` (`src/error.rs` lines 133-146): words joined
with `, `, the last one with ` and `, each wrapped in single quotes. -/
def englishListLoop (total : Nat) : Nat → List (List Char) → List Char
  | _, [] => []
  | i, word :: rest =>
    let is_first := i == 0
    let is_last := i == total - 1
    (if is_first then [] else if is_last then " and ".data else ", ".data)
      ++ (quoteChar :: (word ++ [quoteChar])) ++ englishListLoop total (i + 1) rest

/-- `english_list` (`src/error.rs` lines 133-146). -/
def english_list (list : List (List Char)) : List Char :=
  englishListLoop list.length 0 list

/-- Accumulator-based splitting on whitespace; `acc` holds the current word
reversed.  Mirrors Rust `str::split_whitespace` (splits on
`char::is_whitespace`, yields only non-empty words). -/
def splitWsAux : List Char → List Char → List (List Char)
  | acc, [] => if acc.isEmpty then [] else [acc.reverse]
  | acc, c :: rest =>
    if isRustWhitespace c then
      if acc.isEmpty then splitWsAux [] rest else acc.reverse :: splitWsAux [] rest
    else splitWsAux (c :: acc) rest

/-- Rust `str::split_whitespace`, as used by
`executable_with_whitespace_note` (`src/error.rs` line 149). -/
def split_whitespace (s : List Char) : List (List Char) :=
  splitWsAux [] s

/-- The note text built by `executable_with_whitespace_note`
(`src/error.rs` lines 153-170). -/
def whitespaceNoteText (executable intended_executable : List Char)
    (intended_arguments : List (List Char)) : List Char :=
  "note: Given executable name ".data ++ [quoteChar] ++ executable ++ [quoteChar]
    ++ " contains whitespace.\n".data
    ++ "  Did you mean to run ".data ++ [quoteChar] ++ intended_executable ++ [quoteChar]
    ++ ", with ".data ++ english_list intended_arguments ++ " as ".data
    ++ (if intended_arguments.length == 1 then "the argument".data else "arguments".data)
    ++ "?\n".data
    ++ "  Consider using Split: https://docs.rs/cradle/latest/cradle/input/struct.Split.html".data

/-- `executable_with_whitespace_note` (`src/error.rs` lines 148-175): a
remediation note exactly when the executable splits into at least two
whitespace-separated words. -/
def executable_with_whitespace_note (executable : List Char) : Option (List Char) :=
  match split_whitespace executable with
  | intended_executable :: second :: more =>
    some (whitespaceNoteText executable intended_executable (second :: more))
  | _ => none

/-- The `FileNotFound` arm of `impl Display for Error` (`src/error.rs` lines
182-190): the base message, then the whitespace note on a new line when one
exists. -/
def displayFileNotFound (executable : List Nat) : List Char :=
  let executable := utf8DecodeLossy executable
  "File not found error when executing ".data ++ [quoteChar] ++ executable ++ [quoteChar]
    ++ (match executable_with_whitespace_note executable with
        | some whitespace_note => '\n' :: whitespace_note
        | none => [])

/-- The base `FileNotFound` message without any note. -/
def fileNotFoundBase (executable : List Nat) : List Char :=
  "File not found error when executing ".data ++ [quoteChar]
    ++ utf8DecodeLossy executable ++ [quoteChar]

/-- Spec-side rendering of one argument, following the spec words: an
argument that is empty or contains a space is wrapped in single quotes, all
others appear verbatim; non-UTF-8 bytes are rendered via lossy
replacement. -/
def quoteArgSpec (argument : List Nat) : List Char :=
  if (utf8DecodeLossy argument).isEmpty || (utf8DecodeLossy argument).contains ' ' then
    quoteChar :: (utf8DecodeLossy argument ++ [quoteChar])
  else
    utf8DecodeLossy argument

/-- Spec-side joining by single spaces. -/
def joinWithSpaces : List (List Char) → List Char
  | [] => []
  | [s] => s
  | s :: rest => s ++ ' ' :: joinWithSpaces rest

/-- Spec-side full-command rendering: quoted arguments joined by single
spaces (`spec.md` section 6, logged command rendering). -/
def fullCommandSpec (arguments : List (List Nat)) : List Char :=
  joinWithSpaces (arguments.map quoteArgSpec)

/-- The string has at least one non-whitespace character. -/
def HasNonWhitespace (s : List Char) : Prop :=
  ∃ c ∈ s, isRustWhitespace c = false

/-- The spec-side reading of an executable name containing embedded
whitespace: some whitespace character has a non-whitespace character
somewhere before it and somewhere after it. -/
def ContainsEmbeddedWhitespace (s : List Char) : Prop :=
  ∃ l c r, s = l ++ c :: r ∧ isRustWhitespace c = true ∧
    HasNonWhitespace l ∧ HasNonWhitespace r

/-- A concrete configuration used to instantiate theorems on closed inputs:
one single-byte executable name. -/
def witnessConfig : Config :=
  { Config.default with arguments := [[0x74]] }

theorem stdoutDrainerLoop_capture (chunks : List (List Nat)) :
    ∀ buffer written, stdoutDrainerLoop true chunks (some buffer) written
      = (some (buffer ++ chunks.flatten), written) := by
  induction chunks with
  | nil => intro buffer written; simp [stdoutDrainerLoop]
  | cons chunk rest ih =>
    intro buffer written
    simp [stdoutDrainerLoop, ih, List.append_assoc]

theorem stdoutDrainerLoop_no_capture (chunks : List (List Nat)) :
    ∀ written, stdoutDrainerLoop false chunks none written
      = (none, written ++ chunks.flatten) := by
  induction chunks with
  | nil => intro written; simp [stdoutDrainerLoop]
  | cons chunk rest ih =>
    intro written
    simp [stdoutDrainerLoop, ih, List.append_assoc]

theorem stdoutDrainer_eq (capture_stdout : Bool) (chunks : List (List Nat)) :
    stdoutDrainer capture_stdout chunks
      = (if capture_stdout then some chunks.flatten else none,
         if capture_stdout then [] else chunks.flatten) := by
  cases capture_stdout <;>
    simp [stdoutDrainer, stdoutDrainerLoop_capture, stdoutDrainerLoop_no_capture]

theorem stderrDrainerLoop_eq (capture_stderr : Bool) (chunks : List (List Nat)) :
    ∀ collected written, stderrDrainerLoop capture_stderr chunks collected written
      = (collected ++ chunks.flatten,
         written ++ if capture_stderr then [] else chunks.flatten) := by
  induction chunks with
  | nil => intro collected written; simp [stderrDrainerLoop]
  | cons chunk rest ih =>
    intro collected written
    cases capture_stderr <;> simp [stderrDrainerLoop, ih, List.append_assoc]

theorem stderrDrainer_eq (capture_stderr : Bool) (chunks : List (List Nat)) :
    stderrDrainer capture_stderr chunks
      = (chunks.flatten, if capture_stderr then [] else chunks.flatten) := by
  cases capture_stderr <;> simp [stderrDrainer, stderrDrainerLoop_eq]

theorem run_child_process_ok_spawn (config : Config) (x : List Nat)
    (xs : List (List Nat)) (child : ChildBehavior)
    (h : config.arguments = x :: xs) :
    run_child_process config (.ok child)
      = ⟨(match check_exit_status config child.exit_status with
          | .error e => .error e
          | .ok _ =>
            .ok ⟨if config.capture_stdout then some child.stdout_chunks.flatten else none,
                 some child.stderr_chunks.flatten, child.exit_status⟩),
         if config.capture_stdout then [] else child.stdout_chunks.flatten,
         if config.capture_stderr then [] else child.stderr_chunks.flatten⟩ := by
  unfold run_child_process
  rw [h]
  cases hc : check_exit_status config child.exit_status <;>
    simp [parse_input, spawnStandardStreamRelaying, stdoutDrainer_eq, stderrDrainer_eq, hc]

/-- C3: for a child that exits unsuccessfully, the default policy produces
the `NonZeroExitCode` error carrying the rendered full command and the exit
status, while the `Status` extractor disables that policy during configure
and extraction succeeds with the child actual exit status. -/
theorem c3_exit_code_policy (config : Config) (x : List Nat) (xs : List (List Nat))
    (child : ChildBehavior)
    (hargs : config.arguments = x :: xs)
    (hfail : child.exit_status.success = false) :
    (config.error_on_non_zero_exit_code = true →
      (run_child_process config (.ok child)).result
        = .error (Error.NonZeroExitCode config.full_command child.exit_status)) ∧
    (Status.configure config).error_on_non_zero_exit_code = false ∧
    run_child_process_output Status.outputSpec config (.ok child)
      = .ok ⟨child.exit_status⟩ := by
  refine ⟨fun hpolicy => ?_, rfl, ?_⟩
  · rw [run_child_process_ok_spawn config x xs child hargs]
    simp [check_exit_status, hpolicy, hfail]
  · simp only [run_child_process_output, Status.outputSpec]
    rw [run_child_process_ok_spawn (Status.configure config) x xs child
      (by simpa [Status.configure] using hargs)]
    simp [check_exit_status, Status.configure, Status.from_child_output]

/-- Witness for `c3_exit_code_policy` at a concrete configuration and a
child exiting with code 1. -/
theorem c3_witness :
    (witnessConfig.arguments = [[0x74]] ∧
      (ExitStatus.exited 1).success = false) ∧
    ((witnessConfig.error_on_non_zero_exit_code = true →
        (run_child_process witnessConfig
            (.ok ⟨[], [], ExitStatus.exited 1⟩)).result
          = .error (Error.NonZeroExitCode witnessConfig.full_command
              (ExitStatus.exited 1))) ∧
      (Status.configure witnessConfig).error_on_non_zero_exit_code = false ∧
      run_child_process_output Status.outputSpec witnessConfig
          (.ok ⟨[], [], ExitStatus.exited 1⟩)
        = .ok ⟨ExitStatus.exited 1⟩) :=
  ⟨⟨rfl, rfl⟩,
    c3_exit_code_policy witnessConfig [0x74] [] ⟨[], [], ExitStatus.exited 1⟩ rfl rfl⟩

/-- C4: a spawn failure is reported as `FileNotFound` (carrying the
executable and the OS error) exactly when the OS error kind is not-found,
and as `CommandIoError` otherwise; no other report is possible. -/
theorem c4_spawn_failure_classification (config : Config) (executable : List Nat)
    (rest : List (List Nat)) (source : IoError)
    (h : config.arguments = executable :: rest) :
    (run_child_process config (.error source)).result
      = .error (if source.kind = IoErrorKind.notFound
                then Error.FileNotFound executable source
                else Error.command_io_error config source) := by
  unfold run_child_process
  rw [h]
  by_cases hk : source.kind = IoErrorKind.notFound <;> simp [parse_input, hk]

/-- Witness for `c4_spawn_failure_classification` at a concrete not-found
spawn failure. -/
theorem c4_witness :
    witnessConfig.arguments = [[0x74]] ∧
    (run_child_process witnessConfig (.error ⟨IoErrorKind.notFound, []⟩)).result
      = .error (if (⟨IoErrorKind.notFound, []⟩ : IoError).kind = IoErrorKind.notFound
                then Error.FileNotFound [0x74] ⟨IoErrorKind.notFound, []⟩
                else Error.command_io_error witnessConfig ⟨IoErrorKind.notFound, []⟩) :=
  ⟨rfl,
    c4_spawn_failure_classification witnessConfig [0x74] [] ⟨IoErrorKind.notFound, []⟩ rfl⟩

/-- C5: a configuration whose argument list is empty after the extractor has
configured it yields the typed `NoExecutableGiven` error, and a non-empty
argument list is parsed into its head as the executable and its tail as the
arguments. -/
theorem c5_no_executable_given {α : Type} (o : OutputSpec α) (config : Config)
    (spawn : Except IoError ChildBehavior) (x : List Nat) (xs : List (List Nat))
    (h : (o.configure config).arguments = []) :
    run_child_process_output o config spawn = .error Error.NoExecutableGiven ∧
    parse_input [] = .error Error.NoExecutableGiven ∧
    parse_input (x :: xs) = .ok (x, xs) := by
  refine ⟨?_, rfl, rfl⟩
  simp [run_child_process_output, run_child_process, h, parse_input]

/-- Witness for `c5_no_executable_given` with the unit extractor and the
default (empty) configuration. -/
theorem c5_witness :
    (unitOutputSpec.configure Config.default).arguments = [] ∧
    (run_child_process_output unitOutputSpec Config.default
        (.ok ⟨[], [], ExitStatus.exited 0⟩) = .error Error.NoExecutableGiven ∧
      parse_input [] = .error Error.NoExecutableGiven ∧
      parse_input ([0x74] :: []) = .ok ([0x74], [])) :=
  ⟨rfl,
    c5_no_executable_given unitOutputSpec Config.default
      (.ok ⟨[], [], ExitStatus.exited 0⟩) [0x74] [] rfl⟩

/-- C6: when stdout is captured nothing is written to the parent stdout
sink, and when it is not captured the parent stdout receives exactly the
bytes the child wrote, in order. -/
theorem c6_capture_vs_relay (config : Config) (x : List Nat) (xs : List (List Nat))
    (child : ChildBehavior) (hargs : config.arguments = x :: xs) :
    (run_child_process config (.ok child)).parent_stdout
      = if config.capture_stdout then [] else child.stdout_chunks.flatten := by
  rw [run_child_process_ok_spawn config x xs child hargs]

/-- Witness for `c6_capture_vs_relay` at a concrete two-chunk stdout
stream. -/
theorem c6_witness :
    witnessConfig.arguments = [[0x74]] ∧
    (run_child_process witnessConfig
        (.ok ⟨[[0x61], [0x62, 0x63]], [], ExitStatus.exited 0⟩)).parent_stdout
      = if witnessConfig.capture_stdout then []
        else ([[0x61], [0x62, 0x63]] : List (List Nat)).flatten :=
  ⟨rfl,
    c6_capture_vs_relay witnessConfig [0x74] []
      ⟨[[0x61], [0x62, 0x63]], [], ExitStatus.exited 0⟩ rfl⟩

/-- C9: capturing the stdout of a child that writes nothing yields a present
empty buffer in the internal result, and untrimmed text extraction returns
the empty string, never the not-captured state and never an internal
error. -/
theorem c9_empty_capture (config : Config) (x : List Nat) (xs : List (List Nat))
    (child : ChildBehavior)
    (hargs : config.arguments = x :: xs)
    (hempty : child.stdout_chunks = [])
    (hsucc : child.exit_status.success = true) :
    (run_child_process (StdoutUntrimmed.configure config) (.ok child)).result
      = .ok ⟨some [], some child.stderr_chunks.flatten, child.exit_status⟩ ∧
    run_child_process_output StdoutUntrimmed.outputSpec config (.ok child)
      = .ok ⟨[]⟩ := by
  have hargs2 : (StdoutUntrimmed.configure config).arguments = x :: xs := by
    simpa [StdoutUntrimmed.configure] using hargs
  have hrun := run_child_process_ok_spawn (StdoutUntrimmed.configure config) x xs child hargs2
  constructor
  · rw [hrun]
    simp [check_exit_status, hsucc, hempty, StdoutUntrimmed.configure]
  · have hdec : utf8DecodeStrict ([] : List Nat) = some [] := rfl
    simp only [run_child_process_output, StdoutUntrimmed.outputSpec]
    rw [hrun]
    simp [check_exit_status, hsucc, hempty, StdoutUntrimmed.configure,
      StdoutUntrimmed.from_child_output, hdec]

/-- Witness for `c9_empty_capture` at a concrete child that writes no
stdout bytes. -/
theorem c9_witness :
    (witnessConfig.arguments = [[0x74]] ∧
      (⟨[], [[0x61]], ExitStatus.exited 0⟩ : ChildBehavior).stdout_chunks = [] ∧
      (ExitStatus.exited 0).success = true) ∧
    ((run_child_process (StdoutUntrimmed.configure witnessConfig)
        (.ok ⟨[], [[0x61]], ExitStatus.exited 0⟩)).result
      = .ok ⟨some [], some ([[0x61]] : List (List Nat)).flatten, ExitStatus.exited 0⟩ ∧
    run_child_process_output StdoutUntrimmed.outputSpec witnessConfig
        (.ok ⟨[], [[0x61]], ExitStatus.exited 0⟩)
      = .ok ⟨[]⟩) :=
  ⟨⟨rfl, rfl, rfl⟩,
    c9_empty_capture witnessConfig [0x74] [] ⟨[], [[0x61]], ExitStatus.exited 0⟩ rfl rfl rfl⟩

/-- C2 (amended): in the internal result of an invocation that completes
without error, the captured stdout buffer is present if and only if
`capture_stdout` was set, while the stderr buffer is always present (the
drainer collects stderr unconditionally; `capture_stderr` only suppresses
relaying). -/
theorem c2_capture_presence (config : Config) (x : List Nat) (xs : List (List Nat))
    (child : ChildBehavior) (child_output : ChildOutput)
    (hargs : config.arguments = x :: xs)
    (hok : (run_child_process config (.ok child)).result = .ok child_output) :
    (child_output.stdout
      = if config.capture_stdout then some child.stdout_chunks.flatten else none) ∧
    child_output.stderr = some child.stderr_chunks.flatten := by
  rw [run_child_process_ok_spawn config x xs child hargs] at hok
  cases hcheck : check_exit_status config child.exit_status with
  | error e => rw [hcheck] at hok; simp at hok
  | ok u =>
    rw [hcheck] at hok
    simp only [Except.ok.injEq] at hok
    rw [← hok]
    exact ⟨rfl, rfl⟩

/-- Counterexample to C2 as stated: a run with `capture_stderr` unset still
produces an internal result whose stderr buffer is present (not absent). -/
theorem c2_counterexample :
    witnessConfig.capture_stderr = false ∧
    (run_child_process witnessConfig (.ok ⟨[], [[0x61]], ExitStatus.exited 0⟩)).result
      = .ok ⟨none, some [0x61], ExitStatus.exited 0⟩ ∧
    (some [0x61] : Option (List Nat)) ≠ none := by
  refine ⟨rfl, by decide, by simp⟩

/-- Witness for `c2_capture_presence` at a concrete successful run. -/
theorem c2_witness :
    (witnessConfig.arguments = [[0x74]] ∧
      (run_child_process witnessConfig (.ok ⟨[], [[0x61]], ExitStatus.exited 0⟩)).result
        = .ok ⟨none, some [0x61], ExitStatus.exited 0⟩) ∧
    (((⟨none, some [0x61], ExitStatus.exited 0⟩ : ChildOutput).stdout
        = if witnessConfig.capture_stdout
          then some ((⟨[], [[0x61]], ExitStatus.exited 0⟩ : ChildBehavior)).stdout_chunks.flatten
          else none) ∧
      (⟨none, some [0x61], ExitStatus.exited 0⟩ : ChildOutput).stderr
        = some ((⟨[], [[0x61]], ExitStatus.exited 0⟩ : ChildBehavior)).stderr_chunks.flatten) :=
  ⟨⟨rfl, by decide⟩,
    c2_capture_presence witnessConfig [0x74] [] ⟨[], [[0x61]], ExitStatus.exited 0⟩
      ⟨none, some [0x61], ExitStatus.exited 0⟩ rfl (by decide)⟩

/-- C10: on a failing exit with the policy enabled, the error is
`NonZeroExitCode` carrying exactly the rendered full command and the exit
status; it is independent of whatever bytes the drainers collected, so the
captured output is not retrievable from the error value. -/
theorem c10_nonzero_exit_error_payload (config : Config) (x : List Nat)
    (xs : List (List Nat)) (child other : ChildBehavior)
    (hargs : config.arguments = x :: xs)
    (hpolicy : config.error_on_non_zero_exit_code = true)
    (hfail : child.exit_status.success = false)
    (hsame : other.exit_status = child.exit_status) :
    (run_child_process config (.ok child)).result
      = .error (Error.NonZeroExitCode config.full_command child.exit_status) ∧
    (run_child_process config (.ok other)).result
      = (run_child_process config (.ok child)).result := by
  have key : ∀ ch : ChildBehavior, ch.exit_status = child.exit_status →
      (run_child_process config (.ok ch)).result
        = .error (Error.NonZeroExitCode config.full_command child.exit_status) := by
    intro ch hch
    rw [run_child_process_ok_spawn config x xs ch hargs]
    simp [check_exit_status, hpolicy, hch, hfail]
  exact ⟨key child rfl, (key other hsame).trans (key child rfl).symm⟩

theorem quoteArgSpec_ne_nil (argument : List Nat) : quoteArgSpec argument ≠ [] := by
  unfold quoteArgSpec
  cases hempty : (utf8DecodeLossy argument).isEmpty with
  | false =>
    cases hcontains : (utf8DecodeLossy argument).contains ' ' with
    | false =>
      simp only [hempty, hcontains, Bool.or_self, Bool.false_eq_true, if_false]
      intro hnil
      rw [hnil] at hempty
      simp at hempty
    | true => simp [hempty, hcontains]
  | true => simp [hempty]

theorem fullCommandLoop_cons (argument : List Nat) (rest : List (List Nat))
    (result : List Char) :
    fullCommandLoop (argument :: rest) result
      = fullCommandLoop rest
          ((if result.isEmpty then result else result ++ [' ']) ++ quoteArgSpec argument) := by
  simp only [fullCommandLoop, quoteArgSpec]
  by_cases hq : utf8DecodeLossy argument = [] ∨ ' ' ∈ utf8DecodeLossy argument <;>
    simp [hq]

theorem fullCommandLoop_acc (arguments : List (List Nat)) :
    ∀ result : List Char, result ≠ [] →
      fullCommandLoop arguments result
        = result ++ (arguments.map (fun a => ' ' :: quoteArgSpec a)).flatten := by
  induction arguments with
  | nil => intro result _; simp [fullCommandLoop]
  | cons argument rest ih =>
    intro result hr
    have hre : result.isEmpty = false := by
      cases result
      · exact absurd rfl hr
      · rfl
    rw [fullCommandLoop_cons, hre]
    simp only [Bool.false_eq_true, if_false]
    rw [ih ((result ++ [' ']) ++ quoteArgSpec argument) (by simp)]
    simp [List.append_assoc]

theorem joinWithSpaces_head (s : List Char) (l : List (List Char)) :
    joinWithSpaces (s :: l) = s ++ (l.map (fun t => ' ' :: t)).flatten := by
  induction l generalizing s with
  | nil => simp [joinWithSpaces]
  | cons t rest ih =>
    rw [show joinWithSpaces (s :: t :: rest) = s ++ ' ' :: joinWithSpaces (t :: rest) from rfl]
    rw [ih t]
    simp

/-- C7: the rendered full command equals the arguments joined by single
spaces, each argument wrapped in single quotes exactly when its lossy
decoding is empty or contains a space, and rendered verbatim otherwise. -/
theorem c7_full_command_rendering (config : Config) :
    config.full_command = fullCommandSpec config.arguments := by
  unfold Config.full_command fullCommandSpec
  cases config.arguments with
  | nil => simp [fullCommandLoop, joinWithSpaces]
  | cons argument rest =>
    rw [fullCommandLoop_cons]
    simp only [List.isEmpty_nil, if_true, List.nil_append]
    rw [fullCommandLoop_acc rest (quoteArgSpec argument) (quoteArgSpec_ne_nil argument)]
    rw [List.map_cons, joinWithSpaces_head, List.map_map]
    rfl

theorem dropWhile_eq_rustTrim_append (s : List Char) :
    s.dropWhile isRustWhitespace
      = rustTrim s
        ++ ((s.dropWhile isRustWhitespace).reverse.takeWhile isRustWhitespace).reverse := by
  apply List.reverse_injective
  rw [List.reverse_append]
  unfold rustTrim
  rw [List.reverse_reverse, List.reverse_reverse, List.takeWhile_append_dropWhile]

theorem rustTrim_decomposition (s : List Char) :
    ∃ leading trailing,
      (∀ c ∈ leading, isRustWhitespace c = true) ∧
      (∀ c ∈ trailing, isRustWhitespace c = true) ∧
      s = leading ++ rustTrim s ++ trailing := by
  refine ⟨s.takeWhile isRustWhitespace,
    ((s.dropWhile isRustWhitespace).reverse.takeWhile isRustWhitespace).reverse,
    ?_, ?_, ?_⟩
  · intro c hc
    exact List.mem_takeWhile_imp hc
  · intro c hc
    rw [List.mem_reverse] at hc
    exact List.mem_takeWhile_imp hc
  · conv_lhs => rw [← List.takeWhile_append_dropWhile isRustWhitespace s]
    rw [List.append_assoc]
    congr 1
    exact dropWhile_eq_rustTrim_append s

theorem rustTrim_head_not_ws (s : List Char) :
    ∀ c, (rustTrim s).head? = some c → isRustWhitespace c = false := by
  intro c hc
  have hd : (s.dropWhile isRustWhitespace).head? = some c := by
    rw [dropWhile_eq_rustTrim_append s, List.head?_append, hc]
    rfl
  have hnot := List.head?_dropWhile_not isRustWhitespace s
  rw [hd] at hnot
  exact hnot

theorem rustTrim_getLast_not_ws (s : List Char) :
    ∀ c, (rustTrim s).getLast? = some c → isRustWhitespace c = false := by
  intro c hc
  have hd : ((s.dropWhile isRustWhitespace).reverse.dropWhile isRustWhitespace).head?
      = some c := by
    have : rustTrim s
        = ((s.dropWhile isRustWhitespace).reverse.dropWhile isRustWhitespace).reverse := rfl
    rw [this, List.getLast?_reverse] at hc
    exact hc
  have hnot := List.head?_dropWhile_not isRustWhitespace
    (s.dropWhile isRustWhitespace).reverse
  rw [hd] at hnot
  exact hnot

theorem splitWsAux_length_pos (s : List Char) :
    ∀ acc : List Char, acc ≠ [] → 1 ≤ (splitWsAux acc s).length := by
  induction s with
  | nil =>
    intro acc hacc
    have hne : acc.isEmpty = false := by
      cases acc with
      | nil => exact absurd rfl hacc
      | cons a as => rfl
    simp [splitWsAux, hne]
  | cons c rest ih =>
    intro acc hacc
    have hne : acc.isEmpty = false := by
      cases acc with
      | nil => exact absurd rfl hacc
      | cons a as => rfl
    cases hws : isRustWhitespace c with
    | true => simp [splitWsAux, hws, hne]
    | false =>
      simp only [splitWsAux, hws, Bool.false_eq_true, if_false]
      exact ih (c :: acc) (by simp)

theorem splitWsAux_nil_one_iff (s : List Char) :
    1 ≤ (splitWsAux [] s).length ↔ HasNonWhitespace s := by
  induction s with
  | nil => simp [splitWsAux, HasNonWhitespace]
  | cons c rest ih =>
    cases hws : isRustWhitespace c with
    | true =>
      have hstep : splitWsAux [] (c :: rest) = splitWsAux [] rest := by
        simp [splitWsAux, hws]
      rw [hstep, ih]
      constructor
      · rintro ⟨d, hd, hdws⟩
        exact ⟨d, List.mem_cons_of_mem c hd, hdws⟩
      · rintro ⟨d, hd, hdws⟩
        rcases List.mem_cons.mp hd with h | h
        · rw [h] at hdws
          rw [hdws] at hws
          exact Bool.noConfusion hws
        · exact ⟨d, h, hdws⟩
    | false =>
      have hstep : splitWsAux [] (c :: rest) = splitWsAux [c] rest := by
        simp [splitWsAux, hws]
      rw [hstep]
      constructor
      · intro _
        exact ⟨c, List.mem_cons_self c rest, hws⟩
      · intro _
        exact splitWsAux_length_pos rest [c] (by simp)

theorem splitWsAux_two_iff (s : List Char) :
    ∀ acc : List Char, acc ≠ [] →
      (2 ≤ (splitWsAux acc s).length ↔
        ∃ l c r, s = l ++ c :: r ∧ isRustWhitespace c = true ∧ HasNonWhitespace r) := by
  induction s with
  | nil =>
    intro acc hacc
    have hne : acc.isEmpty = false := by
      cases acc with
      | nil => exact absurd rfl hacc
      | cons a as => rfl
    constructor
    · intro h
      rw [show splitWsAux acc [] = [acc.reverse] from by simp [splitWsAux, hne]] at h
      simp at h
    · rintro ⟨l, c, r, heq, _, _⟩
      exact absurd heq.symm (by simp)
  | cons c rest ih =>
    intro acc hacc
    have hne : acc.isEmpty = false := by
      cases acc with
      | nil => exact absurd rfl hacc
      | cons a as => rfl
    cases hws : isRustWhitespace c with
    | true =>
      rw [show splitWsAux acc (c :: rest) = acc.reverse :: splitWsAux [] rest from by
        simp [splitWsAux, hws, hne]]
      simp only [List.length_cons]
      constructor
      · intro h2
        have h1 : 1 ≤ (splitWsAux [] rest).length := by omega
        exact ⟨[], c, rest, rfl, hws, (splitWsAux_nil_one_iff rest).mp h1⟩
      · rintro ⟨l, c', r, heq, hc', hr⟩
        have h1 : HasNonWhitespace rest := by
          cases l with
          | nil =>
            injection heq with hch hrest
            rw [hrest]
            exact hr
          | cons a l' =>
            injection heq with hch hrest
            obtain ⟨d, hd, hdws⟩ := hr
            exact ⟨d, by
              rw [hrest]
              exact List.mem_append_right l' (List.mem_cons_of_mem c' hd), hdws⟩
        have := (splitWsAux_nil_one_iff rest).mpr h1
        omega
    | false =>
      rw [show splitWsAux acc (c :: rest) = splitWsAux (c :: acc) rest from by
        simp [splitWsAux, hws]]
      rw [ih (c :: acc) (by simp)]
      constructor
      · rintro ⟨l, c', r, heq, hc', hr⟩
        exact ⟨c :: l, c', r, by rw [heq]; rfl, hc', hr⟩
      · rintro ⟨l, c', r, heq, hc', hr⟩
        cases l with
        | nil =>
          injection heq with hch hrest
          rw [← hch] at hc'
          rw [hc'] at hws
          exact Bool.noConfusion hws
        | cons a l' =>
          injection heq with hch hrest
          exact ⟨l', c', r, hrest, hc', hr⟩

theorem split_whitespace_two_iff (s : List Char) :
    2 ≤ (split_whitespace s).length ↔ ContainsEmbeddedWhitespace s := by
  induction s with
  | nil =>
    constructor
    · intro h
      simp [split_whitespace, splitWsAux] at h
    · rintro ⟨l, c, r, heq, _, _, _⟩
      exact absurd heq.symm (by simp)
  | cons c rest ih =>
    cases hws : isRustWhitespace c with
    | true =>
      have hstep : split_whitespace (c :: rest) = split_whitespace rest := by
        simp [split_whitespace, splitWsAux, hws]
      rw [hstep, ih]
      constructor
      · rintro ⟨l, c', r, heq, hc', hl, hr⟩
        refine ⟨c :: l, c', r, by rw [heq]; rfl, hc', ?_, hr⟩
        obtain ⟨d, hd, hdws⟩ := hl
        exact ⟨d, List.mem_cons_of_mem c hd, hdws⟩
      · rintro ⟨l, c', r, heq, hc', hl, hr⟩
        cases l with
        | nil =>
          obtain ⟨d, hd, _⟩ := hl
          exact absurd hd (List.not_mem_nil d)
        | cons a l' =>
          injection heq with hch hrest
          obtain ⟨d, hd, hdws⟩ := hl
          rcases List.mem_cons.mp hd with h | h
          · rw [h, ← hch] at hdws
            rw [hdws] at hws
            exact Bool.noConfusion hws
          · exact ⟨l', c', r, hrest, hc', ⟨d, h, hdws⟩, hr⟩
    | false =>
      have hstep : split_whitespace (c :: rest) = splitWsAux [c] rest := by
        simp [split_whitespace, splitWsAux, hws]
      rw [hstep, splitWsAux_two_iff rest [c] (by simp)]
      constructor
      · rintro ⟨l, c', r, heq, hc', hr⟩
        exact ⟨c :: l, c', r, by rw [heq]; rfl, hc',
          ⟨c, List.mem_cons_self c l, hws⟩, hr⟩
      · rintro ⟨l, c', r, heq, hc', hl, hr⟩
        cases l with
        | nil =>
          injection heq with hch hrest
          rw [← hch] at hc'
          rw [hc'] at hws
          exact Bool.noConfusion hws
        | cons a l' =>
          injection heq with hch hrest
          exact ⟨l', c', r, hrest, hc', hr⟩

/-- C8: the displayed `FileNotFound` message carries the remediation note,
which names the intended executable, exactly when the (lossily decoded)
executable name contains embedded whitespace; without embedded whitespace
the message is the bare base message with no note. -/
theorem c8_whitespace_note (executable_bytes : List Nat) :
    (ContainsEmbeddedWhitespace (utf8DecodeLossy executable_bytes) →
      ∃ intended rest note,
        split_whitespace (utf8DecodeLossy executable_bytes) = intended :: rest ∧
        executable_with_whitespace_note (utf8DecodeLossy executable_bytes) = some note ∧
        (∃ pre post, note = pre ++ intended ++ post) ∧
        displayFileNotFound executable_bytes
          = fileNotFoundBase executable_bytes ++ '\n' :: note) ∧
    (¬ ContainsEmbeddedWhitespace (utf8DecodeLossy executable_bytes) →
      executable_with_whitespace_note (utf8DecodeLossy executable_bytes) = none ∧
      displayFileNotFound executable_bytes = fileNotFoundBase executable_bytes) := by
  constructor
  · intro h
    have h2 : 2 ≤ (split_whitespace (utf8DecodeLossy executable_bytes)).length :=
      (split_whitespace_two_iff _).mpr h
    cases hsplit : split_whitespace (utf8DecodeLossy executable_bytes) with
    | nil =>
      rw [hsplit] at h2
      simp at h2
    | cons w0 tail =>
      cases tail with
      | nil =>
        rw [hsplit] at h2
        simp at h2
      | cons w1 more =>
        have hnote : executable_with_whitespace_note (utf8DecodeLossy executable_bytes)
            = some (whitespaceNoteText (utf8DecodeLossy executable_bytes) w0 (w1 :: more)) := by
          simp [executable_with_whitespace_note, hsplit]
        refine ⟨w0, w1 :: more,
          whitespaceNoteText (utf8DecodeLossy executable_bytes) w0 (w1 :: more),
          rfl, hnote, ?_, ?_⟩
        · refine ⟨"note: Given executable name ".data ++ [quoteChar]
              ++ utf8DecodeLossy executable_bytes ++ [quoteChar]
              ++ " contains whitespace.\n".data
              ++ "  Did you mean to run ".data ++ [quoteChar],
            [quoteChar] ++ ", with ".data ++ english_list (w1 :: more) ++ " as ".data
              ++ (if (w1 :: more).length == 1 then "the argument".data else "arguments".data)
              ++ "?\n".data
              ++ "  Consider using Split: https://docs.rs/cradle/latest/cradle/input/struct.Split.html".data,
            ?_⟩
          simp [whitespaceNoteText, List.append_assoc]
        · simp [displayFileNotFound, fileNotFoundBase, hnote, List.append_assoc]
  · intro h
    have h2 : ¬ 2 ≤ (split_whitespace (utf8DecodeLossy executable_bytes)).length :=
      fun hh => h ((split_whitespace_two_iff _).mp hh)
    have hnote : executable_with_whitespace_note (utf8DecodeLossy executable_bytes)
        = none := by
      cases hsplit : split_whitespace (utf8DecodeLossy executable_bytes) with
      | nil => simp [executable_with_whitespace_note, hsplit]
      | cons w0 tail =>
        cases tail with
        | nil => simp [executable_with_whitespace_note, hsplit]
        | cons w1 more =>
          exfalso
          apply h2
          rw [hsplit]
          simp
    refine ⟨hnote, ?_⟩
    simp [displayFileNotFound, fileNotFoundBase, hnote, List.append_assoc]

/-- Witness for `c8_whitespace_note` at the concrete executable name
`"a b"`. -/
theorem c8_witness :
    ContainsEmbeddedWhitespace (utf8DecodeLossy [0x61, 0x20, 0x62]) ∧
    ∃ intended rest note,
      split_whitespace (utf8DecodeLossy [0x61, 0x20, 0x62]) = intended :: rest ∧
      executable_with_whitespace_note (utf8DecodeLossy [0x61, 0x20, 0x62]) = some note ∧
      (∃ pre post, note = pre ++ intended ++ post) ∧
      displayFileNotFound [0x61, 0x20, 0x62]
        = fileNotFoundBase [0x61, 0x20, 0x62] ++ '\n' :: note := by
  have hemb : ContainsEmbeddedWhitespace (utf8DecodeLossy [0x61, 0x20, 0x62]) :=
    ⟨['a'], ' ', ['b'], by decide, by decide,
      ⟨'a', by decide, by decide⟩, ⟨'b', by decide, by decide⟩⟩
  exact ⟨hemb, (c8_whitespace_note [0x61, 0x20, 0x62]).1 hemb⟩

/-- C1 (amended): trimmed-stdout extraction decodes the captured stdout as
UTF-8 and removes all leading and trailing whitespace, not just a single
trailing newline: the result is an infix of the decoded text whose removed
margins are entirely whitespace and whose own endpoints are
non-whitespace. -/
theorem c1_trim_all_whitespace (config : Config) (child_output : ChildOutput)
    (stdout_bytes : List Nat) (s : List Char)
    (hstdout : child_output.stdout = some stdout_bytes)
    (hdecode : utf8DecodeStrict stdout_bytes = some s) :
    StdoutTrimmed.from_child_output config child_output = .ok ⟨rustTrim s⟩ ∧
    ∃ leading trailing,
      (∀ c ∈ leading, isRustWhitespace c = true) ∧
      (∀ c ∈ trailing, isRustWhitespace c = true) ∧
      s = leading ++ rustTrim s ++ trailing ∧
      (∀ c, (rustTrim s).head? = some c → isRustWhitespace c = false) ∧
      (∀ c, (rustTrim s).getLast? = some c → isRustWhitespace c = false) := by
  constructor
  · simp [StdoutTrimmed.from_child_output, StdoutUntrimmed.from_child_output,
      hstdout, hdecode]
  · obtain ⟨leading, trailing, hlead, htrail, hsplit⟩ := rustTrim_decomposition s
    exact ⟨leading, trailing, hlead, htrail, hsplit,
      rustTrim_head_not_ws s, rustTrim_getLast_not_ws s⟩

/-- Counterexample to C1 as stated: the spec claims a trailing space is
preserved (`trim("foo ") == "foo "`), but the extractor returns `"foo"`
for captured stdout `"foo "`. -/
theorem c1_counterexample :
    run_child_process_output StdoutTrimmed.outputSpec witnessConfig
        (.ok ⟨[[0x66, 0x6F, 0x6F, 0x20]], [], ExitStatus.exited 0⟩)
      = .ok ⟨['f', 'o', 'o']⟩ ∧
    (⟨['f', 'o', 'o']⟩ : StdoutTrimmed) ≠ ⟨['f', 'o', 'o', ' ']⟩ := by
  constructor
  · decide
  · decide

/-- Witness for `c1_trim_all_whitespace` at the concrete captured stdout
text `" foo\n"`. -/
theorem c1_witness :
    ((⟨some [0x20, 0x66, 0x6F, 0x6F, 0x0A], some [], ExitStatus.exited 0⟩
        : ChildOutput).stdout = some [0x20, 0x66, 0x6F, 0x6F, 0x0A] ∧
      utf8DecodeStrict [0x20, 0x66, 0x6F, 0x6F, 0x0A]
        = some [' ', 'f', 'o', 'o', '\n']) ∧
    (StdoutTrimmed.from_child_output Config.default
        ⟨some [0x20, 0x66, 0x6F, 0x6F, 0x0A], some [], ExitStatus.exited 0⟩
      = .ok ⟨rustTrim [' ', 'f', 'o', 'o', '\n']⟩ ∧
    ∃ leading trailing,
      (∀ c ∈ leading, isRustWhitespace c = true) ∧
      (∀ c ∈ trailing, isRustWhitespace c = true) ∧
      [' ', 'f', 'o', 'o', '\n']
        = leading ++ rustTrim [' ', 'f', 'o', 'o', '\n'] ++ trailing ∧
      (∀ c, (rustTrim [' ', 'f', 'o', 'o', '\n']).head? = some c →
        isRustWhitespace c = false) ∧
      (∀ c, (rustTrim [' ', 'f', 'o', 'o', '\n']).getLast? = some c →
        isRustWhitespace c = false)) :=
  ⟨⟨rfl, by decide⟩,
    c1_trim_all_whitespace Config.default
      ⟨some [0x20, 0x66, 0x6F, 0x6F, 0x0A], some [], ExitStatus.exited 0⟩
      [0x20, 0x66, 0x6F, 0x6F, 0x0A] [' ', 'f', 'o', 'o', '\n'] rfl (by decide)⟩

/-- Witness for `c10_nonzero_exit_error_payload`: two failing runs that
differ only in the bytes the child wrote produce the same error. -/
theorem c10_witness :
    (witnessConfig.arguments = [[0x74]] ∧
      witnessConfig.error_on_non_zero_exit_code = true ∧
      (ExitStatus.exited 1).success = false ∧
      (⟨[[0x62]], [[0x63]], ExitStatus.exited 1⟩ : ChildBehavior).exit_status
        = (⟨[[0x61]], [], ExitStatus.exited 1⟩ : ChildBehavior).exit_status) ∧
    ((run_child_process witnessConfig
        (.ok ⟨[[0x61]], [], ExitStatus.exited 1⟩)).result
      = .error (Error.NonZeroExitCode witnessConfig.full_command (ExitStatus.exited 1)) ∧
    (run_child_process witnessConfig
        (.ok ⟨[[0x62]], [[0x63]], ExitStatus.exited 1⟩)).result
      = (run_child_process witnessConfig
          (.ok ⟨[[0x61]], [], ExitStatus.exited 1⟩)).result) :=
  ⟨⟨rfl, rfl, rfl, rfl⟩,
    c10_nonzero_exit_error_payload witnessConfig [0x74] []
      ⟨[[0x61]], [], ExitStatus.exited 1⟩ ⟨[[0x62]], [[0x63]], ExitStatus.exited 1⟩
      rfl rfl rfl rfl⟩

end Cradle
